import Mathlib

/-!
Verification development for the zebras-launcher orchestration layer.

The TypeScript frontend (hooks, components, service bindings) is embedded
directly from the repository sources.  The Rust/Tauri backend commands
(process manager, terminal manager, port-conflict resolver, git manager)
are not part of the available sources; where a claim depends on them they
are modelled from the specification, and each such definition carries a
doc comment saying so.
-/

namespace ZebrasLauncher

/-- Status of a managed dev-server process, from src/types/process.ts
(ProcessStatus = "starting" | "running" | "stopped" | "crashed"). -/
inductive ProcessStatus where
  | starting
  | running
  | stopped
  | crashed
deriving DecidableEq, Repr

/-- ManagedProcess record, from the ProcessInfo interface in
src/types/process.ts. -/
structure ProcessInfo where
  process_id : String
  project_id : String
  project_name : String
  status : ProcessStatus
  started_at : String
  pid : Option Nat
deriving DecidableEq, Repr

/-- Terminal session status, from src/types/terminal.ts. -/
inductive TerminalStatus where
  | idle
  | running
  | completed
  | error
deriving DecidableEq, Repr

/-- TerminalSession record, from src/types/terminal.ts. -/
structure TerminalSession where
  session_id : String
  project_id : String
  command : Option String
  status : TerminalStatus
  pid : Option Nat
deriving DecidableEq, Repr

/-- GitStatus record, from src/types/git.ts. -/
structure GitStatus where
  branch : Option String
  has_remote : Bool
  uncommitted_count : Nat
  ahead_count : Nat
  behind_count : Nat
deriving DecidableEq, Repr

/-- GitPullResult record, from src/types/git.ts. -/
structure GitPullResult where
  success : Bool
  message : String
  status : GitStatus
deriving DecidableEq, Repr

/-- PortChange record, from src/types/project.ts. -/
structure PortChange where
  project_name : String
  old_port : Nat
  new_port : Nat
deriving DecidableEq, Repr

/-- ProjectInfo, from src/types/project.ts.  Presentation-only string
fields (version, platform, type, domain, framework, last_scanned, error,
debug) are omitted: no claim reads them.  The optional enabled flag
(enabled?: boolean, defaulted to true at every use site) is an
Option Bool. -/
structure ProjectInfo where
  id : String
  name : String
  path : String
  port : Nat
  is_valid : Bool
  enabled : Option Bool
deriving DecidableEq, Repr

/-- Workspace settings, from src/types/workspace.ts. -/
structure WorkspaceSettings where
  auto_start_all : Bool
  port_range_start : Nat
  port_range_end : Nat
deriving DecidableEq, Repr

/-- Workspace record, from src/types/workspace.ts. -/
structure Workspace where
  id : String
  name : String
  root_path : String
  folders : List String
  created_at : String
  last_modified : String
  projects : List ProjectInfo
  settings : WorkspaceSettings
deriving DecidableEq, Repr

/-- Application settings, from src/types (AppSettings consumed by
useAppSettings).  JS numbers are modelled as rationals. -/
structure AppSettings where
  gitFetchIntervalMinutes : Rat
  gitNotificationsEnabled : Bool
deriving DecidableEq, Repr

/-! ### Settings loader (useAppSettings.ts) -/

/-- One JSON field of the persisted settings object as seen by the
loader: absent, present with the expected type, or present with some
other type (the typeof check in loadSettings distinguishes exactly
these cases). -/
inductive JsonField (α : Type) where
  | missing
  | typed (a : α)
  | wrongType
deriving DecidableEq, Repr

/-- The parsed JSON object (Partial of AppSettings) that JSON.parse may
produce in loadSettings. -/
structure ParsedSettings where
  gitFetchIntervalMinutes : JsonField Rat
  gitNotificationsEnabled : JsonField Bool
deriving DecidableEq, Repr

/-- What localStorage.getItem plus JSON.parse can yield inside the try
block of loadSettings: no stored value, a parse failure (the thrown
exception is caught), or a parsed object. -/
inductive StoredSettings where
  | absent
  | malformed
  | parsed (p : ParsedSettings)
deriving DecidableEq, Repr

/-- DEFAULT_SETTINGS from src/hooks/useAppSettings.ts. -/
def DEFAULT_SETTINGS : AppSettings :=
  { gitFetchIntervalMinutes := 15, gitNotificationsEnabled := true }

/-- loadSettings from src/hooks/useAppSettings.ts: returns the defaults
when nothing is stored or parsing throws; otherwise validates each field
(typeof number and strictly positive for the interval, typeof boolean for
the notification flag) and falls back to the default per field. -/
def loadSettings : StoredSettings → AppSettings
  | .absent => DEFAULT_SETTINGS
  | .malformed => DEFAULT_SETTINGS
  | .parsed p =>
    { gitFetchIntervalMinutes :=
        match p.gitFetchIntervalMinutes with
        | .typed q => if 0 < q then q else DEFAULT_SETTINGS.gitFetchIntervalMinutes
        | _ => DEFAULT_SETTINGS.gitFetchIntervalMinutes
      gitNotificationsEnabled :=
        match p.gitNotificationsEnabled with
        | .typed b => b
        | _ => DEFAULT_SETTINGS.gitNotificationsEnabled }

/-! ### Caller-side port-conflict handler (useWorkspace.ts) -/

/-- Net effect of one invocation of the resolveConflicts callback in
src/hooks/useWorkspace.ts: the workspace state afterwards, whether
saveWorkspace was invoked, and the returned changes list. -/
structure ResolveOutcome where
  workspace : Option Workspace
  saved : Bool
  changes : List PortChange
deriving Repr

/-- The resolveConflicts callback of src/hooks/useWorkspace.ts.  The
backend command resolve_port_conflicts is abstracted as the function
argument backend (workspace id, projects, port range in, pair of updated
projects and changes out).  When the returned changes list is non-empty
the workspace is replaced (new projects, new last_modified) and saved;
otherwise state is left as is and nothing is saved. -/
def useWorkspaceResolveConflicts (ws : Option Workspace) (now : String)
    (backend : String → List ProjectInfo → Nat → Nat →
      (List ProjectInfo × List PortChange)) : ResolveOutcome :=
  match ws with
  | none => { workspace := none, saved := false, changes := [] }
  | some w =>
    let r := backend w.id w.projects w.settings.port_range_start w.settings.port_range_end
    if 0 < r.2.length then
      { workspace := some { w with projects := r.1, last_modified := now }
        saved := true
        changes := r.2 }
    else
      { workspace := some w, saved := false, changes := r.2 }

/-! ### Process Manager (backend, modelled from the spec) -/

/-- Error raised by start, from the spec error taxonomy. -/
inductive StartError where
  | AlreadyRunning
deriving DecidableEq, Repr

/-- Modelled from the spec: lifecycle section 3 — terminal states are
stopped and crashed and both free the registry slot, so an entry is live
exactly in the starting and running states. -/
def isLive : ProcessStatus → Bool
  | .starting => true
  | .running => true
  | .stopped => false
  | .crashed => false

/-- Modelled from the spec: whether the process registry holds a live
entry owned by the given project. -/
def hasLiveForProject (reg : List ProcessInfo) (projectId : String) : Bool :=
  reg.any fun p => p.project_id == projectId && isLive p.status

/-- Number of live registry entries owned by the given project. -/
def countLiveForProject (reg : List ProcessInfo) (projectId : String) : Nat :=
  (reg.filter fun p => p.project_id == projectId && isLive p.status).length

/-- Modelled from the spec: the registry entry a start inserts — a
starting entry with a freshly generated process identifier and no
confirmed OS pid yet. -/
def newProcessEntry (processId projectId projectName startedAt : String) :
    ProcessInfo :=
  { process_id := processId, project_id := projectId
    project_name := projectName, status := .starting
    started_at := startedAt, pid := none }

/-- Modelled from the spec: the start_project backend command (Process
Manager start, section 4.2), whose Rust implementation is not among the
sources.  It fails with AlreadyRunning when a live entry exists for the
project (idempotent rejection) and otherwise inserts a starting
entry. -/
def startProject (reg : List ProcessInfo)
    (newProcessId projectId projectName startedAt : String) :
    Except StartError (ProcessInfo × List ProcessInfo) :=
  if hasLiveForProject reg projectId then
    .error .AlreadyRunning
  else
    let info := newProcessEntry newProcessId projectId projectName startedAt
    .ok (info, reg ++ [info])

/-! ### Terminal Manager (backend, modelled from the spec) -/

/-- Error raised by createSession, from the spec error taxonomy. -/
inductive TerminalError where
  | SessionLimitExceeded
deriving DecidableEq, Repr

/-- Sessions of the terminal registry owned by the given project. -/
def sessionsForProject (reg : List TerminalSession) (projectId : String) :
    List TerminalSession :=
  reg.filter fun s => s.project_id == projectId

/-- Modelled from the spec: the session a createSession allocates — an
idle session with no running command and no OS pid. -/
def newIdleSession (projectId sessionId : String) : TerminalSession :=
  { session_id := sessionId, project_id := projectId
    command := none, status := .idle, pid := none }

/-- Modelled from the spec: the create_terminal_session backend command
(Terminal Manager createSession, section 4.3), whose Rust implementation
is not among the sources.  It fails with SessionLimitExceeded when 3
sessions already exist for the project and otherwise allocates an idle
session. -/
def createSession (reg : List TerminalSession)
    (projectId newSessionId : String) :
    Except TerminalError (TerminalSession × List TerminalSession) :=
  if 3 ≤ (sessionsForProject reg projectId).length then
    .error .SessionLimitExceeded
  else
    let s := newIdleSession projectId newSessionId
    .ok (s, reg ++ [s])

/-- Modelled from the spec: the close_terminal_session backend command
(Terminal Manager closeSession, section 4.3) — kill-then-remove; after
the call the session identifier is no longer in the registry. -/
def closeSession (reg : List TerminalSession) (sessionId : String) :
    List TerminalSession :=
  reg.filter fun s => s.session_id != sessionId

/-! ### Port Manager (backend, modelled from the spec) -/

/-- Modelled from the spec: a project takes part in port resolution only
when it is enabled and valid (section 4.4 step 1); the enabled flag
defaults to true when absent, as at every frontend use site. -/
def evProject (p : ProjectInfo) : Bool :=
  p.enabled.getD true && p.is_valid

/-- Modelled from the spec: the set of ports already claimed by the
enabled-and-valid projects of the list, in stable input order
(section 4.4 step 2). -/
def claimedPorts (projects : List ProjectInfo) : List Nat :=
  (projects.filter evProject).map fun p => p.port

/-- Modelled from the spec: the first free port scanning upward from lo
to hi, skipping ports already claimed by this resolution pass and ports
observed bound by the OS probe (section 4.4 step 3). -/
def findFreePort (claimed osBound : List Nat) (lo hi : Nat) : Option Nat :=
  (List.range' lo (hi + 1 - lo)).find? fun p =>
    decide (p ∉ claimed) && decide (p ∉ osBound)

/-- Accumulated state and output of one resolution pass. -/
structure ResolveResult where
  updatedProjects : List ProjectInfo
  changes : List PortChange
  finalSeen : List Nat
  finalClaimed : List Nat
deriving Repr

/-- Modelled from the spec: the scan of section 4.4 steps 2 to 4.
seen holds the ports of first claimants already passed (a later
enabled-and-valid project whose port is in seen is a conflict); claimed
holds every port the pass may not hand out (all originally claimed ports
plus every new assignment).  A conflicting project receives the first
free port in range, or keeps its port when the range is exhausted
(partial resolution is still returned).  Excluded projects pass through
untouched. -/
def resolveScan (osBound : List Nat) (lo hi : Nat) :
    List Nat → List Nat → List ProjectInfo → ResolveResult
  | seen, claimed, [] =>
    { updatedProjects := [], changes := [], finalSeen := seen, finalClaimed := claimed }
  | seen, claimed, p :: rest =>
    if evProject p then
      if p.port ∈ seen then
        match findFreePort claimed osBound lo hi with
        | some q =>
          let r := resolveScan osBound lo hi seen (q :: claimed) rest
          { r with
              updatedProjects := { p with port := q } :: r.updatedProjects
              changes := { project_name := p.name, old_port := p.port, new_port := q } :: r.changes }
        | none =>
          let r := resolveScan osBound lo hi seen claimed rest
          { r with updatedProjects := p :: r.updatedProjects }
      else
        let r := resolveScan osBound lo hi (p.port :: seen) claimed rest
        { r with updatedProjects := p :: r.updatedProjects }
    else
      let r := resolveScan osBound lo hi seen claimed rest
      { r with updatedProjects := p :: r.updatedProjects }

/-- Modelled from the spec: the resolve_port_conflicts backend command
(Port Manager resolveConflicts, section 4.4), whose Rust implementation
is not among the sources.  The OS probe is abstracted as the list
osBound of ports observed bound by processes foreign to the current
workspace (the workspace id serves only to make that distinction, so it
is not otherwise read). -/
def resolvePortConflicts (currentWorkspaceId : String)
    (projects : List ProjectInfo) (portRangeStart portRangeEnd : Nat)
    (osBound : List Nat) : List ProjectInfo × List PortChange :=
  let r := resolveScan osBound portRangeStart portRangeEnd []
    (claimedPorts projects) projects
  (r.updatedProjects, r.changes)

/-! ### Git Status Manager (backend, modelled from the spec) -/

/-- Errors of the git manager, from the spec error taxonomy. -/
inductive GitError where
  | GitNotInstalled
  | NotGitRepo
deriving DecidableEq, Repr

/-- Modelled from the spec: the observable git state of one repository
path, as read by the git_manager backend whose Rust implementation is
not among the sources — whether the executable exists, whether the path
is a repository, the current HEAD reference (none for detached HEAD),
whether an upstream tracking reference is configured, the count of
changed or untracked entries, and the commit divergence against the
upstream when one exists. -/
structure RepoState where
  gitInstalled : Bool
  isRepo : Bool
  headBranch : Option String
  hasUpstream : Bool
  uncommittedEntries : Nat
  aheadOfUpstream : Nat
  behindUpstream : Nat
deriving DecidableEq, Repr

/-- Modelled from the spec: the GitStatus snapshot computed on a
readable repository — ahead and behind counts are 0 and has_remote is
false when no upstream is configured, rather than being omitted. -/
def statusSnapshot (r : RepoState) : GitStatus :=
  { branch := r.headBranch
    has_remote := r.hasUpstream
    uncommitted_count := r.uncommittedEntries
    ahead_count := if r.hasUpstream then r.aheadOfUpstream else 0
    behind_count := if r.hasUpstream then r.behindUpstream else 0 }

/-- Modelled from the spec: the get_git_status backend command
(section 4.5) — fails with GitNotInstalled when the executable cannot be
located, with NotGitRepo when the path is not a repository, and
otherwise returns the snapshot. -/
def getStatus (r : RepoState) : Except GitError GitStatus :=
  if !r.gitInstalled then .error .GitNotInstalled
  else if !r.isRepo then .error .NotGitRepo
  else .ok (statusSnapshot r)

/-- Modelled from the spec: the git_pull backend command (section 4.5).
The underlying fast-forward-only pull is abstracted as ffPull (new repo
state plus whether the fast-forward succeeded).  The result carries the
GitPullResult, the repository state afterwards, and whether the
underlying pull was attempted at all.  A pre-pull status with
uncommitted changes refuses with success false and an explanatory
message, without running the pull. -/
def gitPull (r : RepoState) (ffPull : RepoState → RepoState × Bool) :
    Except GitError (GitPullResult × RepoState × Bool) :=
  match getStatus r with
  | .error e => .error e
  | .ok st =>
    if 0 < st.uncommitted_count then
      .ok ({ success := false
             message := "存在未提交更改，已取消 Pull"
             status := st }, r, false)
    else
      let res := ffPull r
      if res.2 then
        .ok ({ success := true, message := "Pull 成功"
               status := statusSnapshot res.1 }, res.1, true)
      else
        .ok ({ success := false, message := "无法快进合并，已取消 Pull"
               status := st }, res.1, true)

/-! ### Frontend git hook (useGitStatus.ts) -/

/-- An error message thrown across the Tauri boundary, as inspected by
useGitStatus.ts: the hook only tests message.includes(GIT_NOT_INSTALLED)
and message.includes(NOT_GIT_REPO), so the two inclusion outcomes are
carried as flags beside the text. -/
structure GitErrMsg where
  has_not_installed : Bool
  has_not_repo : Bool
  text : String
deriving DecidableEq, Repr

/-- One invocation of the version-control executable through the Tauri
backend, as issued by useGitStatus.ts. -/
inductive GitCall where
  | isRepoCall (path : String)
  | statusCall (path : String)
  | fetchCall (path : String)
  | pullCall (path : String)
deriving DecidableEq, Repr

/-- The backend responses the hook can observe, one function per Tauri
git API of src/services/tauri.ts. -/
structure GitEnv where
  isRepo : String → Bool
  status : String → Except GitErrMsg GitStatus
  fetchResult : String → Except GitErrMsg GitStatus
  pullResult : String → Except GitErrMsg GitPullResult

/-- JS Map.set semantics: replace the value under an existing key,
append otherwise. -/
def setAssoc {α : Type} (l : List (String × α)) (k : String) (v : α) :
    List (String × α) :=
  if l.any fun kv => kv.1 == k then
    l.map fun kv => if kv.1 == k then (k, v) else kv
  else
    l ++ [(k, v)]

/-- State of the useGitStatus hook: gitStatuses, gitBusyByProjectId
(fetching and pulling flags), gitDisabledReason and the
prevBehindByProjectId ref of src/hooks/useGitStatus.ts. -/
structure GitHookState where
  statuses : List (String × Option GitStatus)
  busy : List (String × Bool × Bool)
  disabledReason : Option String
  prevBehind : List (String × Nat)
deriving Repr

/-- JS truthiness of a string-or-null value, as used by the
`if (gitDisabledReason) return` guards: null and the empty string are
falsy. -/
def jsTruthy : Option String → Bool
  | none => false
  | some s => !(s == "")

/-- The fixed message useGitStatus.ts stores in gitDisabledReason. -/
def GIT_DISABLED_MSG : String := "Git 未安装，已禁用 Git 功能"

/-- Busy pair currently stored for a project (getOrDefaultBusy in
useGitStatus.ts). -/
def getBusy (l : List (String × Bool × Bool)) (k : String) : Bool × Bool :=
  ((l.find? fun kv => kv.1 == k).map fun kv => kv.2).getD (false, false)

/-- setBusy with a fetching update, from useGitStatus.ts. -/
def setFetching (st : GitHookState) (projectId : String) (b : Bool) :
    GitHookState :=
  { st with busy := setAssoc st.busy projectId (b, (getBusy st.busy projectId).2) }

/-- setBusy with a pulling update, from useGitStatus.ts. -/
def setPulling (st : GitHookState) (projectId : String) (b : Bool) :
    GitHookState :=
  { st with busy := setAssoc st.busy projectId ((getBusy st.busy projectId).1, b) }

/-- refreshProject from src/hooks/useGitStatus.ts, returning the new
hook state and the backend git invocations issued.  When
gitDisabledReason is set it returns at once without touching the
backend; otherwise it asks isGitRepo, then getGitStatus, disabling git
on a GIT_NOT_INSTALLED message and clearing the status on a
NOT_GIT_REPO message. -/
def refreshProject (env : GitEnv) (st : GitHookState) (project : ProjectInfo) :
    GitHookState × List GitCall :=
  if jsTruthy st.disabledReason then (st, [])
  else if env.isRepo project.path = false then
    ({ st with statuses := setAssoc st.statuses project.id none },
     [.isRepoCall project.path])
  else
    match env.status project.path with
    | .ok s =>
      ({ st with
          statuses := setAssoc st.statuses project.id (some s)
          prevBehind := setAssoc st.prevBehind project.id s.behind_count },
       [.isRepoCall project.path, .statusCall project.path])
    | .error e =>
      let st1 :=
        if e.has_not_installed then
          { st with disabledReason := some GIT_DISABLED_MSG }
        else st
      let st2 :=
        if e.has_not_repo then
          { st1 with statuses := setAssoc st1.statuses project.id none }
        else st1
      (st2, [.isRepoCall project.path, .statusCall project.path])

/-- fetchProject from src/hooks/useGitStatus.ts (new state, git
invocations issued, whether the error was rethrown).  Browser
notifications are not version-control invocations and are not tracked.
When gitDisabledReason is set it returns before any backend call. -/
def fetchProject (env : GitEnv) (st : GitHookState) (project : ProjectInfo) :
    GitHookState × List GitCall × Bool :=
  if jsTruthy st.disabledReason then (st, [], false)
  else
    let st0 := setFetching st project.id true
    if env.isRepo project.path = false then
      (setFetching { st0 with statuses := setAssoc st0.statuses project.id none }
        project.id false,
       [.isRepoCall project.path], false)
    else
      match env.fetchResult project.path with
      | .ok s =>
        let st1 :=
          { st0 with
              statuses := setAssoc st0.statuses project.id (some s)
              prevBehind := setAssoc st0.prevBehind project.id s.behind_count }
        (setFetching st1 project.id false,
         [.isRepoCall project.path, .fetchCall project.path], false)
      | .error e =>
        let st1 :=
          if e.has_not_installed then
            { st0 with disabledReason := some GIT_DISABLED_MSG }
          else st0
        (setFetching st1 project.id false,
         [.isRepoCall project.path, .fetchCall project.path], true)

/-- pullProject from src/hooks/useGitStatus.ts (new state, git
invocations issued, returned GitPullResult when any, whether the error
was rethrown).  When gitDisabledReason is set it returns null before any
backend call. -/
def pullProject (env : GitEnv) (st : GitHookState) (project : ProjectInfo) :
    GitHookState × List GitCall × Option GitPullResult × Bool :=
  if jsTruthy st.disabledReason then (st, [], none, false)
  else
    let st0 := setPulling st project.id true
    match env.pullResult project.path with
    | .ok r =>
      let st1 :=
        { st0 with
            statuses := setAssoc st0.statuses project.id (some r.status)
            prevBehind := setAssoc st0.prevBehind project.id r.status.behind_count }
      (setPulling st1 project.id false, [.pullCall project.path], some r, false)
    | .error e =>
      let st1 :=
        if e.has_not_installed then
          { st0 with disabledReason := some GIT_DISABLED_MSG }
        else st0
      (setPulling st1 project.id false, [.pullCall project.path], none, true)

/-- A git request the presentation layer can issue through the hook. -/
inductive GitOp where
  | refresh (p : ProjectInfo)
  | fetch (p : ProjectInfo)
  | pull (p : ProjectInfo)

/-- Dispatch one hook operation, keeping the new state and the backend
invocations issued. -/
def runGitOp (env : GitEnv) (st : GitHookState) :
    GitOp → GitHookState × List GitCall
  | .refresh p => refreshProject env st p
  | .fetch p =>
    let r := fetchProject env st p
    (r.1, r.2.1)
  | .pull p =>
    let r := pullProject env st p
    (r.1, r.2.1)

/-- Run a sequence of hook operations, concatenating the backend
invocations issued. -/
def runGitOps (env : GitEnv) (st : GitHookState) :
    List GitOp → GitHookState × List GitCall
  | [] => (st, [])
  | op :: ops =>
    let r := runGitOp env st op
    let rest := runGitOps env r.1 ops
    (rest.1, r.2 ++ rest.2)

/-! ### Bulk stop (App.tsx handleStopAll) -/

/-- One entry of processesToStop in App.tsx handleStopAll: a project of
the workspace that has a running process. -/
structure StopEntry where
  projectId : String
  projectName : String
  process : ProcessInfo
deriving DecidableEq, Repr

/-- processesToStop from App.tsx handleStopAll: workspace projects
paired with their entry of the runningProcesses map, dropping projects
with no running process. -/
def processesToStop (projects : List ProjectInfo)
    (running : List (String × ProcessInfo)) : List StopEntry :=
  projects.filterMap fun proj =>
    ((running.find? fun kv => kv.1 == proj.id).map fun kv => kv.2).map
      fun pr => { projectId := proj.id, projectName := proj.name, process := pr }

/-- The results.forEach accumulation in App.tsx handleStopAll: walk
every settled result in order, pushing the project id on fulfilment and
a per-item message (project name, colon, reason) on rejection. -/
def collectStopResults :
    List (StopEntry × Except String Unit) → List String × List String
  | [] => ([], [])
  | (e, .ok _) :: rest =>
    let r := collectStopResults rest
    (e.projectId :: r.1, r.2)
  | (e, .error m) :: rest =>
    let r := collectStopResults rest
    (r.1, (e.projectName ++ ": " ++ m) :: r.2)

/-- The structured partial-success report handleStopAll produces. -/
structure StopAllReport where
  issuedStops : List String
  stoppedProjectIds : List String
  failedMessages : List String
deriving DecidableEq, Repr

/-- handleStopAll from App.tsx: stop is issued for every entry through
Promise.allSettled (stopOutcome gives each settled outcome), then the
results are collected into stopped project ids and failure messages. -/
def handleStopAll (projects : List ProjectInfo)
    (running : List (String × ProcessInfo))
    (stopOutcome : String → Except String Unit) : StopAllReport :=
  let entries := processesToStop projects running
  let results := entries.map fun e => (e, stopOutcome e.process.process_id)
  let collected := collectStopResults results
  { issuedStops := entries.map fun e => e.process.process_id
    stoppedProjectIds := collected.1
    failedMessages := collected.2 }

/-- A workspace instance used to witness the frame theorem. -/
def wsExample : Workspace :=
  { id := "ws-1", name := "demo", root_path := "/r", folders := ["/r"]
    created_at := "t0", last_modified := "t0"
    projects := [{ id := "a", name := "A", path := "/r/a", port := 3000
                   is_valid := true, enabled := none }]
    settings := { auto_start_all := false, port_range_start := 3000
                  port_range_end := 3005 } }

/-- A backend stub reporting no conflicts, used to witness the frame
theorem. -/
def noChangeBackend : String → List ProjectInfo → Nat → Nat →
    (List ProjectInfo × List PortChange) :=
  fun _ projects _ _ => (projects, [])

/-- An environment whose backend reports a missing git executable,
used to witness stickiness. -/
def noGitEnv : GitEnv :=
  { isRepo := fun _ => true
    status := fun _ => .error { has_not_installed := true
                                has_not_repo := false
                                text := "GIT_NOT_INSTALLED" }
    fetchResult := fun _ => .error { has_not_installed := true
                                     has_not_repo := false
                                     text := "GIT_NOT_INSTALLED" }
    pullResult := fun _ => .error { has_not_installed := true
                                    has_not_repo := false
                                    text := "GIT_NOT_INSTALLED" } }

/-- A project used to witness stickiness. -/
def projExample : ProjectInfo :=
  { id := "a", name := "A", path := "/r/a", port := 3000
    is_valid := true, enabled := none }

/-- A hook state in which GitNotInstalled has been observed. -/
def disabledHookState : GitHookState :=
  { statuses := [], busy := [], disabledReason := some GIT_DISABLED_MSG
    prevBehind := [] }

/-- Scanning check over a resolution output: every enabled-and-valid
project claims a port not yet seen (no two enabled-and-valid projects
share a port, nor one with the initial seen set). -/
def noDup2 (seen : List Nat) : List ProjectInfo → Bool
  | [] => true
  | p :: rest =>
    if evProject p then
      if p.port ∈ seen then false else noDup2 (p.port :: seen) rest
    else noDup2 seen rest

/-! ### Theorems -/

/-- C9: loadSettings is total and validating — for every persisted
settings content (absent, malformed JSON, wrong field types, or a
non-positive interval) it returns an AppSettings whose
gitFetchIntervalMinutes is strictly positive, falling back to the
defaults (15 minutes, notifications enabled) for each invalid field. -/
theorem loadSettings_safe :
    (∀ s, 0 < (loadSettings s).gitFetchIntervalMinutes) ∧
    loadSettings .absent = DEFAULT_SETTINGS ∧
    loadSettings .malformed = DEFAULT_SETTINGS ∧
    (∀ q g, (loadSettings (.parsed ⟨.typed q, g⟩)).gitFetchIntervalMinutes
      = if 0 < q then q else 15) ∧
    (∀ g, (loadSettings (.parsed ⟨.missing, g⟩)).gitFetchIntervalMinutes = 15) ∧
    (∀ g, (loadSettings (.parsed ⟨.wrongType, g⟩)).gitFetchIntervalMinutes = 15) ∧
    (∀ f b, (loadSettings (.parsed ⟨f, .typed b⟩)).gitNotificationsEnabled = b) ∧
    (∀ f, (loadSettings (.parsed ⟨f, .missing⟩)).gitNotificationsEnabled = true) ∧
    (∀ f, (loadSettings (.parsed ⟨f, .wrongType⟩)).gitNotificationsEnabled = true) := by
  refine ⟨?_, rfl, rfl, ?_, ?_, ?_, ?_, ?_, ?_⟩
  · intro s
    cases s with
    | absent => norm_num [loadSettings, DEFAULT_SETTINGS]
    | malformed => norm_num [loadSettings, DEFAULT_SETTINGS]
    | parsed p =>
      rcases p with ⟨fi, fn⟩
      cases fi with
      | typed q =>
        have he : (loadSettings (.parsed ⟨.typed q, fn⟩)).gitFetchIntervalMinutes
            = if 0 < q then q else 15 := rfl
        rw [he]
        by_cases hq : 0 < q
        · rwa [if_pos hq]
        · rw [if_neg hq]; norm_num
      | missing => norm_num [loadSettings, DEFAULT_SETTINGS]
      | wrongType => norm_num [loadSettings, DEFAULT_SETTINGS]
  · intro q g
    simp only [loadSettings, DEFAULT_SETTINGS]
  · intro g; rfl
  · intro g; rfl
  · intro f b; cases f <;> rfl
  · intro f; cases f <;> rfl
  · intro f; cases f <;> rfl

/-- C10: the caller-side resolveConflicts modifies nothing when the
backend reports no conflicts — empty changes leave the workspace
(projects list and last_modified) unchanged and unsaved; non-empty
changes replace the project list, stamp last_modified and persist the
workspace. -/
theorem resolveConflicts_frame (w : Workspace) (now : String)
    (backend : String → List ProjectInfo → Nat → Nat →
      (List ProjectInfo × List PortChange)) :
    ((backend w.id w.projects w.settings.port_range_start
        w.settings.port_range_end).2 = [] →
      useWorkspaceResolveConflicts (some w) now backend
        = { workspace := some w, saved := false, changes := [] }) ∧
    ((backend w.id w.projects w.settings.port_range_start
        w.settings.port_range_end).2 ≠ [] →
      useWorkspaceResolveConflicts (some w) now backend
        = { workspace := some
              { w with
                  projects := (backend w.id w.projects
                    w.settings.port_range_start w.settings.port_range_end).1
                  last_modified := now }
            saved := true
            changes := (backend w.id w.projects w.settings.port_range_start
              w.settings.port_range_end).2 }) := by
  constructor
  · intro h
    simp [useWorkspaceResolveConflicts, h]
  · intro h
    have hl : 0 < (backend w.id w.projects w.settings.port_range_start
        w.settings.port_range_end).2.length := List.length_pos.mpr h
    simp [useWorkspaceResolveConflicts, hl]

/-- Witness for resolveConflicts_frame at a concrete workspace and a
backend reporting no conflicts. -/
theorem resolveConflicts_frame_witness :
    (noChangeBackend wsExample.id wsExample.projects
      wsExample.settings.port_range_start wsExample.settings.port_range_end).2 = [] ∧
    useWorkspaceResolveConflicts (some wsExample) "t1" noChangeBackend
      = { workspace := some wsExample, saved := false, changes := [] } :=
  ⟨rfl, (resolveConflicts_frame wsExample "t1" noChangeBackend).1 rfl⟩

/-- C8: getStatus on a repository with no upstream tracking reference
succeeds and returns has_remote false with both divergence counts 0,
rather than omitting those fields. -/
theorem getStatus_no_upstream (r : RepoState) (h1 : r.gitInstalled = true)
    (h2 : r.isRepo = true) (h3 : r.hasUpstream = false) :
    getStatus r = .ok { branch := r.headBranch, has_remote := false
                        uncommitted_count := r.uncommittedEntries
                        ahead_count := 0, behind_count := 0 } := by
  simp [getStatus, statusSnapshot, h1, h2, h3]

/-- Witness for getStatus_no_upstream on a freshly cloned repository
with no upstream configured. -/
theorem getStatus_no_upstream_witness :
    getStatus { gitInstalled := true, isRepo := true
                headBranch := some "main", hasUpstream := false
                uncommittedEntries := 0, aheadOfUpstream := 0
                behindUpstream := 0 }
      = .ok { branch := some "main", has_remote := false
              uncommitted_count := 0, ahead_count := 0, behind_count := 0 } :=
  getStatus_no_upstream _ rfl rfl rfl

/-- C5: pull on a repository whose pre-pull status shows uncommitted
changes returns success false with an explanatory message (not a thrown
error), does not attempt the underlying pull, and leaves the working
tree untouched. -/
theorem pull_refuses_uncommitted (r : RepoState)
    (ffPull : RepoState → RepoState × Bool) (st : GitStatus)
    (hok : getStatus r = .ok st) (huc : 0 < st.uncommitted_count) :
    gitPull r ffPull
      = .ok ({ success := false, message := "存在未提交更改，已取消 Pull"
               status := st }, r, false)
    ∧ "存在未提交更改，已取消 Pull" ≠ "" := by
  refine ⟨?_, by decide⟩
  unfold gitPull
  rw [hok]
  simp [huc]

/-- Witness for pull_refuses_uncommitted on a repository with three
uncommitted entries. -/
theorem pull_refuses_uncommitted_witness :
    0 < (3 : Nat) ∧
    gitPull { gitInstalled := true, isRepo := true, headBranch := some "main"
              hasUpstream := true, uncommittedEntries := 3
              aheadOfUpstream := 0, behindUpstream := 1 }
        (fun s => (s, true))
      = .ok ({ success := false, message := "存在未提交更改，已取消 Pull"
               status := { branch := some "main", has_remote := true
                           uncommitted_count := 3, ahead_count := 0
                           behind_count := 1 } },
             { gitInstalled := true, isRepo := true, headBranch := some "main"
               hasUpstream := true, uncommittedEntries := 3
               aheadOfUpstream := 0, behindUpstream := 1 }, false) :=
  ⟨by decide,
   (pull_refuses_uncommitted
     { gitInstalled := true, isRepo := true, headBranch := some "main"
       hasUpstream := true, uncommittedEntries := 3
       aheadOfUpstream := 0, behindUpstream := 1 }
     (fun s => (s, true))
     { branch := some "main", has_remote := true, uncommitted_count := 3
       ahead_count := 0, behind_count := 1 }
     rfl (by decide)).1⟩

/-- C3: on the workspace A(port 3000), B(port 3000), C(port 3001) with
range 3000 to 3005, resolveConflicts reassigns B to 3002 (the first
free port differing from 3000 and 3001), leaves A and C unchanged, and
the changes list is exactly one PortChange for B from 3000 to 3002. -/
theorem resolveConflicts_scenario :
    resolvePortConflicts "ws"
      [{ id := "a", name := "A", path := "/a", port := 3000, is_valid := true, enabled := none },
       { id := "b", name := "B", path := "/b", port := 3000, is_valid := true, enabled := none },
       { id := "c", name := "C", path := "/c", port := 3001, is_valid := true, enabled := none }]
      3000 3005 []
    = ([{ id := "a", name := "A", path := "/a", port := 3000, is_valid := true, enabled := none },
        { id := "b", name := "B", path := "/b", port := 3002, is_valid := true, enabled := none },
        { id := "c", name := "C", path := "/c", port := 3001, is_valid := true, enabled := none }],
       [{ project_name := "B", old_port := 3000, new_port := 3002 }]) := by
  decide

/-- A registry with no live entry for a project filters to the empty
list under the live-and-owned predicate. -/
theorem liveFilter_eq_nil (reg : List ProcessInfo) (prj : String)
    (h : hasLiveForProject reg prj = false) :
    reg.filter (fun p => p.project_id == prj && isLive p.status) = [] := by
  rw [hasLiveForProject, List.any_eq_false] at h
  rw [List.filter_eq_nil_iff]
  intro p hp
  exact fun hc => h p hp hc

/-- C1: calling start twice in immediate succession without an
intervening stop leaves exactly one live ManagedProcess for the project
and the second call fails with AlreadyRunning (a rejection, not a
silent no-op). -/
theorem start_twice_rejected (reg : List ProcessInfo)
    (pid1 pid2 prj name t1 t2 : String)
    (h : hasLiveForProject reg prj = false) :
    startProject reg pid1 prj name t1
      = .ok (newProcessEntry pid1 prj name t1,
             reg ++ [newProcessEntry pid1 prj name t1]) ∧
    startProject (reg ++ [newProcessEntry pid1 prj name t1]) pid2 prj name t2
      = .error .AlreadyRunning ∧
    countLiveForProject (reg ++ [newProcessEntry pid1 prj name t1]) prj = 1 := by
  have hlive2 :
      hasLiveForProject (reg ++ [newProcessEntry pid1 prj name t1]) prj = true := by
    simp [hasLiveForProject, newProcessEntry, isLive]
  refine ⟨?_, ?_, ?_⟩
  · simp [startProject, h]
  · simp [startProject, hlive2]
  · rw [countLiveForProject, List.filter_append, liveFilter_eq_nil reg prj h]
    simp [newProcessEntry, isLive]

/-- Witness for start_twice_rejected from an empty registry. -/
theorem start_twice_rejected_witness :
    hasLiveForProject [] "prj-1" = false ∧
    startProject [] "p1" "prj-1" "A" "t1"
      = .ok (newProcessEntry "p1" "prj-1" "A" "t1",
             [] ++ [newProcessEntry "p1" "prj-1" "A" "t1"]) ∧
    startProject ([] ++ [newProcessEntry "p1" "prj-1" "A" "t1"])
        "p2" "prj-1" "A" "t2" = .error .AlreadyRunning ∧
    countLiveForProject ([] ++ [newProcessEntry "p1" "prj-1" "A" "t1"]) "prj-1" = 1 :=
  ⟨rfl, start_twice_rejected [] "p1" "p2" "prj-1" "A" "t1" "t2" rfl⟩

/-- Filtering by a second predicate cannot resurrect sessions of a
project that had none. -/
theorem sessionsForProject_filter_eq_nil (reg : List TerminalSession)
    (prj : String) (q : TerminalSession → Bool)
    (h0 : sessionsForProject reg prj = []) :
    sessionsForProject (reg.filter q) prj = [] := by
  rw [sessionsForProject, List.filter_comm, ← sessionsForProject, h0,
    List.filter_nil]

/-- C2: from a project with no sessions, createSession succeeds three
times, a fourth call fails with SessionLimitExceeded, and after
closeSession on any one of the three a fourth createSession succeeds
again. -/
theorem session_limit_three (reg : List TerminalSession)
    (prj a b c d : String)
    (h0 : sessionsForProject reg prj = [])
    (hab : a ≠ b) (hac : a ≠ c) (hbc : b ≠ c) :
    createSession reg prj a
      = .ok (newIdleSession prj a, reg ++ [newIdleSession prj a]) ∧
    createSession (reg ++ [newIdleSession prj a]) prj b
      = .ok (newIdleSession prj b,
             reg ++ [newIdleSession prj a] ++ [newIdleSession prj b]) ∧
    createSession (reg ++ [newIdleSession prj a] ++ [newIdleSession prj b]) prj c
      = .ok (newIdleSession prj c,
             reg ++ [newIdleSession prj a] ++ [newIdleSession prj b]
                 ++ [newIdleSession prj c]) ∧
    createSession (reg ++ [newIdleSession prj a] ++ [newIdleSession prj b]
        ++ [newIdleSession prj c]) prj d = .error .SessionLimitExceeded ∧
    (∀ x, (x = a ∨ x = b ∨ x = c) →
      createSession
          (closeSession (reg ++ [newIdleSession prj a] ++ [newIdleSession prj b]
            ++ [newIdleSession prj c]) x) prj d
        = .ok (newIdleSession prj d,
               closeSession (reg ++ [newIdleSession prj a] ++ [newIdleSession prj b]
                 ++ [newIdleSession prj c]) x ++ [newIdleSession prj d])) := by
  have hcount1 :
      sessionsForProject (reg ++ [newIdleSession prj a]) prj
        = [newIdleSession prj a] := by
    rw [sessionsForProject, List.filter_append, ← sessionsForProject, h0]
    simp [newIdleSession]
  have hcount2 :
      sessionsForProject (reg ++ [newIdleSession prj a]
        ++ [newIdleSession prj b]) prj
        = [newIdleSession prj a, newIdleSession prj b] := by
    rw [sessionsForProject, List.filter_append, List.filter_append,
      ← sessionsForProject, h0]
    simp [newIdleSession]
  have hcount3 :
      sessionsForProject (reg ++ [newIdleSession prj a]
        ++ [newIdleSession prj b] ++ [newIdleSession prj c]) prj
        = [newIdleSession prj a, newIdleSession prj b, newIdleSession prj c] := by
    rw [sessionsForProject, List.filter_append, List.filter_append,
      List.filter_append, ← sessionsForProject, h0]
    simp [newIdleSession]
  refine ⟨?_, ?_, ?_, ?_, ?_⟩
  · rw [createSession, h0]
    rfl
  · rw [createSession, hcount1]
    rfl
  · rw [createSession, hcount2]
    rfl
  · rw [createSession, hcount3]
    rfl
  · rintro x (rfl | rfl | rfl) <;>
    · rw [createSession, closeSession, sessionsForProject, List.filter_comm,
        ← sessionsForProject, hcount3]
      simp [newIdleSession, hab, hac, hbc, Ne.symm hab, Ne.symm hac, Ne.symm hbc]

/-- Witness for session_limit_three from an empty registry with four
distinct session identifiers. -/
theorem session_limit_three_witness :
    (sessionsForProject [] "prj-1" = [] ∧ "s1" ≠ "s2" ∧ "s1" ≠ "s3"
      ∧ "s2" ≠ "s3") ∧
    createSession ([] ++ [newIdleSession "prj-1" "s1"]
        ++ [newIdleSession "prj-1" "s2"] ++ [newIdleSession "prj-1" "s3"])
      "prj-1" "s4" = .error .SessionLimitExceeded :=
  ⟨⟨rfl, by decide, by decide, by decide⟩,
   (session_limit_three [] "prj-1" "s1" "s2" "s3" "s4" rfl (by decide)
     (by decide) (by decide)).2.2.2.1⟩

/-- The forEach accumulation of handleStopAll, characterised: the
fulfilled results contribute their project ids, the rejected results
contribute their per-item messages, in order, and together they cover
every result. -/
theorem collectStopResults_spec (l : List (StopEntry × Except String Unit)) :
    (collectStopResults l).1
      = (l.filter fun r => match r.2 with | .ok _ => true | .error _ => false).map
          (fun r => r.1.projectId) ∧
    (collectStopResults l).2
      = l.filterMap (fun r =>
          match r.2 with
          | .ok _ => none
          | .error m => some (r.1.projectName ++ ": " ++ m)) ∧
    (collectStopResults l).1.length + (collectStopResults l).2.length
      = l.length := by
  induction l with
  | nil => exact ⟨rfl, rfl, rfl⟩
  | cons hd tl ih =>
    obtain ⟨e, res⟩ := hd
    cases res with
    | ok u =>
      refine ⟨?_, ?_, ?_⟩
      · simp [collectStopResults, ih.1]
      · simp [collectStopResults, ih.2.1]
      · simp only [collectStopResults, List.length_cons]
        omega
    | error m =>
      refine ⟨?_, ?_, ?_⟩
      · simp [collectStopResults, ih.1]
      · simp [collectStopResults, ih.2.1]
      · simp only [collectStopResults, List.length_cons]
        omega

/-- C6: bulk stop never aborts early — handleStopAll issues stop for
every entry of the running set, every item runs to completion even when
some fail, and the report partitions the entries into succeeded project
identifiers and failed identifiers with individual error messages. -/
theorem stopAll_partial_report (projects : List ProjectInfo)
    (running : List (String × ProcessInfo))
    (stopOutcome : String → Except String Unit) :
    (handleStopAll projects running stopOutcome).issuedStops
      = (processesToStop projects running).map (fun e => e.process.process_id) ∧
    (handleStopAll projects running stopOutcome).stoppedProjectIds
      = ((processesToStop projects running).filter fun e =>
          match stopOutcome e.process.process_id with
          | .ok _ => true
          | .error _ => false).map (fun e => e.projectId) ∧
    (handleStopAll projects running stopOutcome).failedMessages
      = (processesToStop projects running).filterMap (fun e =>
          match stopOutcome e.process.process_id with
          | .ok _ => none
          | .error m => some (e.projectName ++ ": " ++ m)) ∧
    (handleStopAll projects running stopOutcome).stoppedProjectIds.length
        + (handleStopAll projects running stopOutcome).failedMessages.length
      = (processesToStop projects running).length := by
  have hs := collectStopResults_spec
    ((processesToStop projects running).map fun e =>
      (e, stopOutcome e.process.process_id))
  refine ⟨rfl, ?_, ?_, ?_⟩
  · rw [show (handleStopAll projects running stopOutcome).stoppedProjectIds
        = (collectStopResults ((processesToStop projects running).map fun e =>
            (e, stopOutcome e.process.process_id))).1 from rfl, hs.1]
    rw [List.filter_map, List.map_map]
    rfl
  · rw [show (handleStopAll projects running stopOutcome).failedMessages
        = (collectStopResults ((processesToStop projects running).map fun e =>
            (e, stopOutcome e.process.process_id))).2 from rfl, hs.2.1]
    rw [List.filterMap_map]
    rfl
  · rw [show (handleStopAll projects running stopOutcome).stoppedProjectIds
        = (collectStopResults ((processesToStop projects running).map fun e =>
            (e, stopOutcome e.process.process_id))).1 from rfl,
      show (handleStopAll projects running stopOutcome).failedMessages
        = (collectStopResults ((processesToStop projects running).map fun e =>
            (e, stopOutcome e.process.process_id))).2 from rfl,
      hs.2.2, List.length_map]

/-- C7: GitNotInstalled is sticky — once gitDisabledReason is set, every
subsequent refresh, fetch or pull request on any project returns without
invoking the version-control executable (no backend git call is issued)
and without changing the hook state. -/
theorem gitNotInstalled_sticky (env : GitEnv) (st : GitHookState)
    (ops : List GitOp) (h : jsTruthy st.disabledReason = true) :
    runGitOps env st ops = (st, []) := by
  induction ops with
  | nil => rfl
  | cons op ops ih =>
    have hop : runGitOp env st op = (st, []) := by
      cases op with
      | refresh p => simp [runGitOp, refreshProject, h]
      | fetch p => simp [runGitOp, fetchProject, h]
      | pull p => simp [runGitOp, pullProject, h]
    simp [runGitOps, hop, ih]

/-- Witness for gitNotInstalled_sticky: with the disabled reason set, a
refresh, a fetch and a pull in sequence issue no git invocation at
all. -/
theorem gitNotInstalled_sticky_witness :
    jsTruthy disabledHookState.disabledReason = true ∧
    runGitOps noGitEnv disabledHookState
        [.refresh projExample, .fetch projExample, .pull projExample]
      = (disabledHookState, []) :=
  ⟨by decide,
   gitNotInstalled_sticky noGitEnv disabledHookState
     [.refresh projExample, .fetch projExample, .pull projExample] (by decide)⟩

/-- Step equation of resolveScan on an excluded project. -/
theorem resolveScan_skip (os : List Nat) (lo hi : Nat) (seen claimed : List Nat)
    (p : ProjectInfo) (rest : List ProjectInfo) (h : evProject p = false) :
    resolveScan os lo hi seen claimed (p :: rest)
      = { updatedProjects :=
            p :: (resolveScan os lo hi seen claimed rest).updatedProjects
          changes := (resolveScan os lo hi seen claimed rest).changes
          finalSeen := (resolveScan os lo hi seen claimed rest).finalSeen
          finalClaimed := (resolveScan os lo hi seen claimed rest).finalClaimed } := by
  simp [resolveScan, h]

/-- Step equation of resolveScan on a first claimant. -/
theorem resolveScan_keep (os : List Nat) (lo hi : Nat) (seen claimed : List Nat)
    (p : ProjectInfo) (rest : List ProjectInfo) (h1 : evProject p = true)
    (h2 : p.port ∉ seen) :
    resolveScan os lo hi seen claimed (p :: rest)
      = { updatedProjects :=
            p :: (resolveScan os lo hi (p.port :: seen) claimed rest).updatedProjects
          changes := (resolveScan os lo hi (p.port :: seen) claimed rest).changes
          finalSeen := (resolveScan os lo hi (p.port :: seen) claimed rest).finalSeen
          finalClaimed :=
            (resolveScan os lo hi (p.port :: seen) claimed rest).finalClaimed } := by
  simp [resolveScan, h1, h2]

/-- Step equation of resolveScan on a conflicting project that receives
a free port. -/
theorem resolveScan_reassign (os : List Nat) (lo hi : Nat)
    (seen claimed : List Nat) (p : ProjectInfo) (rest : List ProjectInfo)
    (q : Nat) (h1 : evProject p = true) (h2 : p.port ∈ seen)
    (hq : findFreePort claimed os lo hi = some q) :
    resolveScan os lo hi seen claimed (p :: rest)
      = { updatedProjects :=
            { p with port := q }
              :: (resolveScan os lo hi seen (q :: claimed) rest).updatedProjects
          changes :=
            { project_name := p.name, old_port := p.port, new_port := q }
              :: (resolveScan os lo hi seen (q :: claimed) rest).changes
          finalSeen := (resolveScan os lo hi seen (q :: claimed) rest).finalSeen
          finalClaimed :=
            (resolveScan os lo hi seen (q :: claimed) rest).finalClaimed } := by
  simp [resolveScan, h1, h2, hq]

/-- Step equation of resolveScan on a conflicting project when the
range is exhausted. -/
theorem resolveScan_stuck (os : List Nat) (lo hi : Nat)
    (seen claimed : List Nat) (p : ProjectInfo) (rest : List ProjectInfo)
    (h1 : evProject p = true) (h2 : p.port ∈ seen)
    (hq : findFreePort claimed os lo hi = none) :
    resolveScan os lo hi seen claimed (p :: rest)
      = { updatedProjects :=
            p :: (resolveScan os lo hi seen claimed rest).updatedProjects
          changes := (resolveScan os lo hi seen claimed rest).changes
          finalSeen := (resolveScan os lo hi seen claimed rest).finalSeen
          finalClaimed := (resolveScan os lo hi seen claimed rest).finalClaimed } := by
  simp [resolveScan, h1, h2, hq]

/-- claimedPorts over a cons cell headed by an enabled-and-valid
project. -/
theorem claimedPorts_cons_ev (x : ProjectInfo) (xs : List ProjectInfo)
    (h : evProject x = true) :
    claimedPorts (x :: xs) = x.port :: claimedPorts xs := by
  simp [claimedPorts, h]

/-- claimedPorts over a cons cell headed by an excluded project. -/
theorem claimedPorts_cons_skip (x : ProjectInfo) (xs : List ProjectInfo)
    (h : evProject x = false) :
    claimedPorts (x :: xs) = claimedPorts xs := by
  simp [claimedPorts, h]

/-- Updating the port of a project does not change whether it is
enabled-and-valid. -/
theorem evProject_update_port (p : ProjectInfo) (q : Nat) :
    evProject { p with port := q } = evProject p := rfl

/-- noDup2 over a cons cell whose enabled-and-valid head claims a fresh
port. -/
theorem noDup2_cons_ev_new (t : List Nat) (p : ProjectInfo)
    (rest : List ProjectInfo) (h1 : evProject p = true) (h2 : p.port ∉ t) :
    noDup2 t (p :: rest) = noDup2 (p.port :: t) rest := by
  simp [noDup2, h1, h2]

/-- noDup2 over a cons cell whose enabled-and-valid head duplicates a
seen port. -/
theorem noDup2_cons_ev_dup (t : List Nat) (p : ProjectInfo)
    (rest : List ProjectInfo) (h1 : evProject p = true) (h2 : p.port ∈ t) :
    noDup2 t (p :: rest) = false := by
  simp [noDup2, h1, h2]

/-- noDup2 skips an excluded project. -/
theorem noDup2_cons_skip (t : List Nat) (p : ProjectInfo)
    (rest : List ProjectInfo) (h1 : evProject p = false) :
    noDup2 t (p :: rest) = noDup2 t rest := by
  simp [noDup2, h1]

/-- The port of an enabled-and-valid member of the list is among the
claimed ports of the list. -/
theorem port_mem_claimedPorts (x : ProjectInfo) (l : List ProjectInfo)
    (hx : x ∈ l) (hev : evProject x = true) : x.port ∈ claimedPorts l := by
  rw [claimedPorts, List.mem_map]
  exact ⟨x, List.mem_filter.mpr ⟨hx, hev⟩, rfl⟩

/-- Ports in the claimed accumulator survive into the final claimed set
of a resolution pass. -/
theorem resolveScan_claimed_mono (os : List Nat) (lo hi : Nat)
    (l : List ProjectInfo) :
    ∀ seen claimed, ∀ a ∈ claimed,
      a ∈ (resolveScan os lo hi seen claimed l).finalClaimed := by
  induction l with
  | nil =>
    intro seen claimed a ha
    simpa [resolveScan] using ha
  | cons p rest ih =>
    intro seen claimed a ha
    by_cases hev : evProject p
    · by_cases hmem : p.port ∈ seen
      · cases hq : findFreePort claimed os lo hi with
        | some q =>
          rw [resolveScan_reassign os lo hi seen claimed p rest q hev hmem hq]
          exact ih seen (q :: claimed) a (List.mem_cons_of_mem q ha)
        | none =>
          rw [resolveScan_stuck os lo hi seen claimed p rest hev hmem hq]
          exact ih seen claimed a ha
      · rw [resolveScan_keep os lo hi seen claimed p rest hev hmem]
        exact ih (p.port :: seen) claimed a ha
    · rw [resolveScan_skip os lo hi seen claimed p rest (by simpa using hev)]
      exact ih seen claimed a ha

/-- Every port of the final claimed set of a pass either came in with
the claimed accumulator or is claimed by the output projects. -/
theorem resolveScan_finalClaimed_sub (os : List Nat) (lo hi : Nat)
    (l : List ProjectInfo) :
    ∀ seen claimed, ∀ a ∈ (resolveScan os lo hi seen claimed l).finalClaimed,
      a ∈ claimed
        ∨ a ∈ claimedPorts (resolveScan os lo hi seen claimed l).updatedProjects := by
  induction l with
  | nil =>
    intro seen claimed a ha
    exact Or.inl (by simpa [resolveScan] using ha)
  | cons p rest ih =>
    intro seen claimed a ha
    by_cases hev : evProject p
    · by_cases hmem : p.port ∈ seen
      · cases hq : findFreePort claimed os lo hi with
        | some q =>
          rw [resolveScan_reassign os lo hi seen claimed p rest q hev hmem hq] at ha ⊢
          rcases ih seen (q :: claimed) a ha with h | h
          · rcases List.mem_cons.mp h with rfl | h2
            · right
              rw [claimedPorts_cons_ev _ _ (by rw [evProject_update_port]; exact hev)]
              exact List.mem_cons_self _ _
            · exact Or.inl h2
          · right
            rw [claimedPorts_cons_ev _ _ (by rw [evProject_update_port]; exact hev)]
            exact List.mem_cons_of_mem _ h
        | none =>
          rw [resolveScan_stuck os lo hi seen claimed p rest hev hmem hq] at ha ⊢
          rcases ih seen claimed a ha with h | h
          · exact Or.inl h
          · right
            rw [claimedPorts_cons_ev _ _ hev]
            exact List.mem_cons_of_mem _ h
      · rw [resolveScan_keep os lo hi seen claimed p rest hev hmem] at ha ⊢
        rcases ih (p.port :: seen) claimed a ha with h | h
        · exact Or.inl h
        · right
          rw [claimedPorts_cons_ev _ _ hev]
          exact List.mem_cons_of_mem _ h
    · have hev2 : evProject p = false := by simpa using hev
      rw [resolveScan_skip os lo hi seen claimed p rest hev2] at ha ⊢
      rcases ih seen claimed a ha with h | h
      · exact Or.inl h
      · right
        rw [claimedPorts_cons_skip _ _ hev2]
        exact h

/-- Every originally claimed port is still claimed in the output of a
pass, up to the initial seen set. -/
theorem resolveScan_ports_sub (os : List Nat) (lo hi : Nat)
    (l : List ProjectInfo) :
    ∀ seen claimed, ∀ a ∈ claimedPorts l,
      a ∈ claimedPorts (resolveScan os lo hi seen claimed l).updatedProjects
        ∨ a ∈ seen := by
  induction l with
  | nil =>
    intro seen claimed a ha
    simp [claimedPorts] at ha
  | cons p rest ih =>
    intro seen claimed a ha
    by_cases hev : evProject p
    · rw [claimedPorts_cons_ev _ _ hev] at ha
      by_cases hmem : p.port ∈ seen
      · cases hq : findFreePort claimed os lo hi with
        | some q =>
          rw [resolveScan_reassign os lo hi seen claimed p rest q hev hmem hq]
          rcases List.mem_cons.mp ha with rfl | h2
          · exact Or.inr hmem
          · rcases ih seen (q :: claimed) a h2 with h | h
            · left
              rw [claimedPorts_cons_ev _ _ (by rw [evProject_update_port]; exact hev)]
              exact List.mem_cons_of_mem _ h
            · exact Or.inr h
        | none =>
          rw [resolveScan_stuck os lo hi seen claimed p rest hev hmem hq]
          rcases List.mem_cons.mp ha with rfl | h2
          · exact Or.inr hmem
          · rcases ih seen claimed a h2 with h | h
            · left
              rw [claimedPorts_cons_ev _ _ hev]
              exact List.mem_cons_of_mem _ h
            · exact Or.inr h
      · rw [resolveScan_keep os lo hi seen claimed p rest hev hmem]
        rcases List.mem_cons.mp ha with rfl | h2
        · left
          rw [claimedPorts_cons_ev _ _ hev]
          exact List.mem_cons_self _ _
        · rcases ih (p.port :: seen) claimed a h2 with h | h
          · left
            rw [claimedPorts_cons_ev _ _ hev]
            exact List.mem_cons_of_mem _ h
          · rcases List.mem_cons.mp h with rfl | h3
            · left
              rw [claimedPorts_cons_ev _ _ hev]
              exact List.mem_cons_self _ _
            · exact Or.inr h3
    · have hev2 : evProject p = false := by simpa using hev
      rw [claimedPorts_cons_skip _ _ hev2] at ha
      rw [resolveScan_skip os lo hi seen claimed p rest hev2]
      rcases ih seen claimed a ha with h | h
      · left
        rw [claimedPorts_cons_skip _ _ hev2]
        exact h
      · exact Or.inr h

/-- When the whole range is already blocked for the claimed
accumulator, a pass reports no changes at all. -/
theorem resolveScan_changes_nil_of_exhausted (os : List Nat) (lo hi : Nat)
    (l : List ProjectInfo) :
    ∀ seen claimed, findFreePort claimed os lo hi = none →
      (resolveScan os lo hi seen claimed l).changes = [] := by
  induction l with
  | nil =>
    intro seen claimed _
    rfl
  | cons p rest ih =>
    intro seen claimed hnone
    by_cases hev : evProject p
    · by_cases hmem : p.port ∈ seen
      · rw [resolveScan_stuck os lo hi seen claimed p rest hev hmem hnone]
        exact ih seen claimed hnone
      · rw [resolveScan_keep os lo hi seen claimed p rest hev hmem]
        exact ih (p.port :: seen) claimed hnone
    · rw [resolveScan_skip os lo hi seen claimed p rest (by simpa using hev)]
      exact ih seen claimed hnone

/-- A list that passes the noDup2 scan produces no changes. -/
theorem resolveScan_changes_nil_of_noDup2 (os : List Nat) (lo hi : Nat)
    (l : List ProjectInfo) :
    ∀ seen claimed, noDup2 seen l = true →
      (resolveScan os lo hi seen claimed l).changes = [] := by
  induction l with
  | nil =>
    intro seen claimed _
    rfl
  | cons p rest ih =>
    intro seen claimed hnd
    by_cases hev : evProject p
    · by_cases hmem : p.port ∈ seen
      · rw [noDup2_cons_ev_dup seen p rest hev hmem] at hnd
        cases hnd
      · rw [resolveScan_keep os lo hi seen claimed p rest hev hmem]
        rw [noDup2_cons_ev_new seen p rest hev hmem] at hnd
        exact ih (p.port :: seen) claimed hnd
    · have hev2 : evProject p = false := by simpa using hev
      rw [resolveScan_skip os lo hi seen claimed p rest hev2]
      rw [noDup2_cons_skip seen p rest hev2] at hnd
      exact ih seen claimed hnd

/-- Exhaustion is monotone: a range with no free port for a smaller
blocked set has none for a larger one. -/
theorem findFreePort_none_mono (A B os : List Nat) (lo hi : Nat)
    (hsub : ∀ a ∈ A, a ∈ B)
    (h : findFreePort A os lo hi = none) :
    findFreePort B os lo hi = none := by
  rw [findFreePort, List.find?_eq_none] at h ⊢
  intro x hx hxB
  apply h x hx
  simp only [Bool.and_eq_true, decide_eq_true_eq] at hxB ⊢
  obtain ⟨hB1, hB2⟩ := hxB
  exact ⟨fun hxA => hB1 (hsub x hxA), hB2⟩

/-- Dichotomy of a resolution pass.  The scan state is (seen, claimed);
t is the set of output ports already produced before this suffix (the
initial seen plus every new assignment).  If t is covered by claimed,
seen is covered by t, and every enabled-and-valid port of the input is
claimed and only in t when already in seen, then either the output
passes the noDup2 scan against t or the final claimed set exhausts the
whole range. -/
theorem resolveScan_dichotomy (os : List Nat) (lo hi : Nat)
    (l : List ProjectInfo) :
    ∀ seen claimed t, (∀ a ∈ t, a ∈ claimed) → (∀ a ∈ seen, a ∈ t) →
      (∀ x ∈ l, evProject x = true →
        x.port ∈ claimed ∧ (x.port ∈ t → x.port ∈ seen)) →
      noDup2 t (resolveScan os lo hi seen claimed l).updatedProjects = true
        ∨ findFreePort (resolveScan os lo hi seen claimed l).finalClaimed
            os lo hi = none := by
  induction l with
  | nil =>
    intro seen claimed t _ _ _
    exact Or.inl rfl
  | cons p rest ih =>
    intro seen claimed t ht hst hports
    have hports2 : ∀ x ∈ rest, evProject x = true →
        x.port ∈ claimed ∧ (x.port ∈ t → x.port ∈ seen) :=
      fun x hx => hports x (List.mem_cons_of_mem p hx)
    by_cases hev : evProject p
    · by_cases hmem : p.port ∈ seen
      · cases hq : findFreePort claimed os lo hi with
        | some q =>
          have hqprop := List.find?_some hq
          simp only [Bool.and_eq_true, decide_eq_true_eq] at hqprop
          have hqt : q ∉ t := fun h2 => hqprop.1 (ht q h2)
          rw [resolveScan_reassign os lo hi seen claimed p rest q hev hmem hq]
          rcases ih seen (q :: claimed) (q :: t)
              (fun a ha => by
                rcases List.mem_cons.mp ha with rfl | ha2
                · exact List.mem_cons_self _ _
                · exact List.mem_cons_of_mem q (ht a ha2))
              (fun a ha => List.mem_cons_of_mem q (hst a ha))
              (fun x hx hxe => by
                refine ⟨List.mem_cons_of_mem q (hports2 x hx hxe).1, ?_⟩
                intro hx2
                rcases List.mem_cons.mp hx2 with he | hx3
                · exact absurd ((he ▸ hports2 x hx hxe).1) hqprop.1
                · exact (hports2 x hx hxe).2 hx3)
            with h | h
          · left
            rw [noDup2_cons_ev_new t _ _
              (by rw [evProject_update_port]; exact hev) hqt]
            exact h
          · exact Or.inr h
        | none =>
          rw [resolveScan_stuck os lo hi seen claimed p rest hev hmem hq]
          right
          exact findFreePort_none_mono claimed _ os lo hi
            (resolveScan_claimed_mono os lo hi rest seen claimed) hq
      · have hp := hports p (List.mem_cons_self p rest) hev
        have hpt : p.port ∉ t := fun h2 => hmem (hp.2 h2)
        rw [resolveScan_keep os lo hi seen claimed p rest hev hmem]
        rcases ih (p.port :: seen) claimed (p.port :: t)
            (fun a ha => by
              rcases List.mem_cons.mp ha with rfl | ha2
              · exact hp.1
              · exact ht a ha2)
            (fun a ha => by
              rcases List.mem_cons.mp ha with rfl | ha2
              · exact List.mem_cons_self _ _
              · exact List.mem_cons_of_mem p.port (hst a ha2))
            (fun x hx hxe => by
              refine ⟨(hports2 x hx hxe).1, ?_⟩
              intro hx2
              rcases List.mem_cons.mp hx2 with he | hx3
              · exact he ▸ List.mem_cons_self p.port seen
              · exact List.mem_cons_of_mem p.port ((hports2 x hx hxe).2 hx3))
          with h | h
        · left
          rw [noDup2_cons_ev_new t p _ hev hpt]
          exact h
        · exact Or.inr h
    · have hev2 : evProject p = false := by simpa using hev
      rw [resolveScan_skip os lo hi seen claimed p rest hev2]
      rcases ih seen claimed t ht hst hports2 with h | h
      · left
        rw [noDup2_cons_skip t p _ hev2]
        exact h
      · exact Or.inr h

/-- C4: resolvePortConflicts is idempotent on its own output — a second
application to the updatedProjects of a first application reports zero
PortChange entries, for every project list, range and OS probe. -/
theorem resolveConflicts_idempotent (wsId1 wsId2 : String)
    (projects : List ProjectInfo) (lo hi : Nat) (osBound : List Nat) :
    (resolvePortConflicts wsId2
      (resolvePortConflicts wsId1 projects lo hi osBound).1
      lo hi osBound).2 = [] := by
  show (resolveScan osBound lo hi []
    (claimedPorts (resolveScan osBound lo hi [] (claimedPorts projects)
      projects).updatedProjects)
    (resolveScan osBound lo hi [] (claimedPorts projects)
      projects).updatedProjects).changes = []
  rcases resolveScan_dichotomy osBound lo hi projects [] (claimedPorts projects)
      []
      (fun a ha => absurd ha (List.not_mem_nil a))
      (fun a ha => absurd ha (List.not_mem_nil a))
      (fun x hx hxe =>
        ⟨port_mem_claimedPorts x projects hx hxe,
         fun h2 => absurd h2 (List.not_mem_nil x.port)⟩) with hd | hd
  · exact resolveScan_changes_nil_of_noDup2 osBound lo hi _ [] _ hd
  · have hsub : ∀ a ∈ (resolveScan osBound lo hi [] (claimedPorts projects)
        projects).finalClaimed,
        a ∈ claimedPorts (resolveScan osBound lo hi [] (claimedPorts projects)
          projects).updatedProjects := by
      intro a ha
      rcases resolveScan_finalClaimed_sub osBound lo hi projects []
          (claimedPorts projects) a ha with h | h
      · rcases resolveScan_ports_sub osBound lo hi projects []
            (claimedPorts projects) a h with h2 | h2
        · exact h2
        · exact absurd h2 (List.not_mem_nil a)
      · exact h
    exact resolveScan_changes_nil_of_exhausted osBound lo hi _ [] _
      (findFreePort_none_mono _ _ osBound lo hi hsub hd)

end ZebrasLauncher
